import Mathlib

/-!
Verification of the serde_arrow event-driven serialization core against its
natural-language specification.  The definitions below are shallow embeddings
of the Rust sources under src/serde_arrow/src; machine integers are modelled
as Int (resp. Nat for unsigned byte values) with explicit range checks where
the source performs checked conversions, and fallible Rust functions returning
Result are modelled as Except values.
-/

set_option autoImplicit false

namespace SerdeArrow

/--
The serialization event model.  Modelled from the spec (section 3): the Event
type itself lives in internal/event.rs, which is not among the provided
sources; the spec lists the closed set of variants, which matches the
accept_* methods of the EventSink trait in internal/sink.rs.  Float payloads
are carried as raw bit patterns; no claim below inspects them.
-/
inductive Event where
  | null
  | dflt
  | someMarker
  | startSequence
  | endSequence
  | startTuple
  | endTuple
  | startStruct
  | endStruct
  | startMap
  | endMap
  | item
  | variant (name : String) (idx : Nat)
  | str (s : String)
  | bool (b : Bool)
  | i8 (v : Int)
  | i16 (v : Int)
  | i32 (v : Int)
  | i64 (v : Int)
  | u8 (v : Nat)
  | u16 (v : Nat)
  | u32 (v : Nat)
  | u64 (v : Nat)
  | f32 (bits : Nat)
  | f64 (bits : Nat)
deriving DecidableEq, Repr

/--
The four event categories used by the accept_start / accept_end /
accept_marker / accept_value macro groups of internal/sink.rs.  Modelled from
the spec: the macros module (sink/macros.rs) is not among the provided
sources.  The grouping is determined by the EventSink method names used in
sink.rs together with the spec (section 2): the structural start and end
markers form the start and end groups, the some, item and variant signals are
markers (they prefix a value and do not close a row), and every scalar plus
null and default is a value (it completes a row on its own).
-/
inductive EventClass where
  | start
  | stop
  | marker
  | value
deriving DecidableEq, Repr

/-- Event category of each event, as grouped by the sink macros. -/
def Event.classify : Event → EventClass
  | .startSequence | .startTuple | .startStruct | .startMap => .start
  | .endSequence | .endTuple | .endStruct | .endMap => .stop
  | .someMarker | .item | .variant _ _ => .marker
  | _ => .value

/-- State of StripOuterSequenceSink (internal/sink.rs, lines 129 to 134). -/
inductive StripState where
  | waitForStart
  | waitForItem
  | item (depth : Nat)
deriving DecidableEq, Repr

/-- Structured errors; fail! in the source produces a formatted message, the
constructors here carry the same data the messages name. -/
inductive Err where
  | invalidEventInState (ev : Event) (state : StripState)
  | custom (msg : String)
deriving DecidableEq, Repr

/--
One transition of StripOuterSequenceSink, translated from the EventSink
implementation in internal/sink.rs (lines 149 to 210).  The result carries
the successor state together with the list of events forwarded to the wrapped
sink (the source forwards zero or one events per accept call via next).
-/
def stripStep (state : StripState) (ev : Event) : Except Err (StripState × List Event) :=
  match ev.classify with
  | .start =>
    match state with
    | .waitForStart => .ok (.waitForItem, [])
    | .item depth => .ok (.item (depth + 1), [ev])
    | .waitForItem => .error (.invalidEventInState ev .waitForItem)
  | .stop =>
    match state with
    | .item 1 => .ok (.waitForItem, [ev])
    | .item (d + 2) => .ok (.item (d + 1), [ev])
    | .waitForItem => .ok (.waitForStart, [])
    | .item 0 => .error (.invalidEventInState ev (.item 0))
    | .waitForStart => .error (.invalidEventInState ev .waitForStart)
  | .value =>
    match state with
    | .item 0 => .ok (.waitForItem, [ev])
    | .item (d + 1) => .ok (.item (d + 1), [ev])
    | .waitForStart => .error (.invalidEventInState ev .waitForStart)
    | .waitForItem => .error (.invalidEventInState ev .waitForItem)
  | .marker =>
    match state with
    | .waitForItem => if ev = .item then .ok (.item 0, []) else .error (.invalidEventInState ev .waitForItem)
    | .item depth => .ok (.item depth, [ev])
    | .waitForStart => .error (.invalidEventInState ev .waitForStart)

/-- Run the stripper over a whole event list, collecting forwarded events. -/
def stripRun (state : StripState) (events : List Event) :
    Except Err (StripState × List Event) :=
  match events with
  | [] => .ok (state, [])
  | ev :: rest => do
    let (state1, out1) ← stripStep state ev
    let (state2, out2) ← stripRun state1 rest
    pure (state2, out1 ++ out2)

/--
The outer-sequence stripper transition relation exactly as the claim states
it (claim C2, from spec section 4.2): from WaitForStart a sequence start
moves to WaitForItem; from WaitForItem an Item marker moves to Item 0 and an
end marker returns to WaitForStart; in Item depth a start marker is forwarded
and increments depth, an end marker at depth 0 is forwarded and returns to
WaitForItem, an end marker at positive depth is forwarded and decrements
depth, and any other event is forwarded unchanged; everything else errors.
This definition follows the words of the claim, for comparison with stripStep
above, which follows the source.
-/
def claimedStripStep (state : StripState) (ev : Event) : Except Err (StripState × List Event) :=
  match state, ev.classify with
  | .waitForStart, .start =>
    if ev = .startSequence then .ok (.waitForItem, []) else .error (.invalidEventInState ev .waitForStart)
  | .waitForItem, .marker =>
    if ev = .item then .ok (.item 0, []) else .error (.invalidEventInState ev .waitForItem)
  | .waitForItem, .stop => .ok (.waitForStart, [])
  | .item depth, .start => .ok (.item (depth + 1), [ev])
  | .item 0, .stop => .ok (.waitForItem, [ev])
  | .item (d + 1), .stop => .ok (.item d, [ev])
  | .item depth, _ => .ok (.item depth, [ev])
  | s, _ => .error (.invalidEventInState ev s)

/-- Claim-side run, mirroring stripRun over claimedStripStep. -/
def claimedStripRun (state : StripState) (events : List Event) :
    Except Err (StripState × List Event) :=
  match events with
  | [] => .ok (state, [])
  | ev :: rest => do
    let (state1, out1) ← claimedStripStep state ev
    let (state2, out2) ← claimedStripRun state1 rest
    pure (state2, out1 ++ out2)

/--
An event sink with state type sigma: the EventSink trait of internal/sink.rs.
The trait requires the generic accept and the specific accept_* methods to be
observably equivalent, so the embedding keeps only the generic accept.
-/
structure EventSinkM (σ : Type) where
  accept : σ → Event → Except Err σ
  finish : σ → Except Err σ

/-- The recording sink: the EventSink instance for Vec of Event in
internal/sink.rs (lines 212 to 223); accept appends, finish does nothing. -/
def recordingSink : EventSinkM (List Event) where
  accept s ev := .ok (s ++ [ev])
  finish s := .ok s

/-- StripOuterSequenceSink as a sink transformer: the state pairs the strip
state with the wrapped sink state, each accepted event is run through
stripStep and the forwarded events are fed to the wrapped sink; finish
forwards to the wrapped sink (internal/sink.rs, lines 124 to 210). -/
def stripSink {σ : Type} (inner : EventSinkM σ) : EventSinkM (StripState × σ) where
  accept s ev := do
    let (state1, outs) ← stripStep s.1 ev
    let inner1 ← outs.foldlM inner.accept s.2
    pure (state1, inner1)
  finish s := do
    let inner1 ← inner.finish s.2
    pure (s.1, inner1)

/--
Serializable input values: the algebraic value shapes the generic-to-event
adapter (EventSerializer in internal/sink.rs) consumes via the serde
Serializer trait.  Integers are carried as i64, strings as String, byte
sequences as lists of byte values, plus options, sequences and structs.
-/
inductive SerdeValue where
  | int (v : Int)
  | str (s : String)
  | bytes (bs : List Nat)
  | none
  | someV (v : SerdeValue)
  | seq (items : List SerdeValue)
  | strct (fields : List (String × SerdeValue))
deriving Repr

/-- The per-byte loop body of EventSerializer::serialize_bytes: an item
marker followed by a u8 event for every byte in order. -/
def serializeBytesLoop {σ : Type} (sink : EventSinkM σ) (s : σ) :
    List Nat → Except Err σ
  | [] => .ok s
  | b :: rest => do
    let s ← sink.accept s .item
    let s ← sink.accept s (.u8 b)
    serializeBytesLoop sink s rest

/-- EventSerializer::serialize_bytes (internal/sink.rs, lines 399 to 407):
start sequence, then an item marker followed by a u8 event per byte, then
end sequence. -/
def serializeBytes {σ : Type} (sink : EventSinkM σ) (s : σ) (bs : List Nat) :
    Except Err σ := do
  let s ← sink.accept s .startSequence
  let s ← serializeBytesLoop sink s bs
  sink.accept s .endSequence

mutual

/-- The generic-to-event adapter: the Serializer implementation for
EventSerializer in internal/sink.rs (lines 335 to 631), restricted to the
value shapes of SerdeValue. -/
def serializeValue {σ : Type} (sink : EventSinkM σ) (s : σ) : SerdeValue → Except Err σ
  | .int v => sink.accept s (.i64 v)
  | .str v => sink.accept s (.str v)
  | .bytes bs => serializeBytes sink s bs
  | .none => sink.accept s .null
  | .someV v => do
    let s ← sink.accept s .someMarker
    serializeValue sink s v
  | .seq items => do
    let s ← sink.accept s .startSequence
    let s ← serializeSeqElems sink s items
    sink.accept s .endSequence
  | .strct fields => do
    let s ← sink.accept s .startStruct
    let s ← serializeStructFields sink s fields
    sink.accept s .endStruct

/-- SerializeSeq for EventSerializer: item marker before every element. -/
def serializeSeqElems {σ : Type} (sink : EventSinkM σ) (s : σ) :
    List SerdeValue → Except Err σ
  | [] => .ok s
  | v :: rest => do
    let s ← sink.accept s .item
    let s ← serializeValue sink s v
    serializeSeqElems sink s rest

/-- SerializeStruct for EventSerializer: the key as a str event before every
field value. -/
def serializeStructFields {σ : Type} (sink : EventSinkM σ) (s : σ) :
    List (String × SerdeValue) → Except Err σ
  | [] => .ok s
  | (key, v) :: rest => do
    let s ← sink.accept s (.str key)
    let s ← serializeValue sink s v
    serializeStructFields sink s rest

end

/-- serialize_into_sink (internal/sink.rs, lines 17 to 24): serialize the
value into the sink, then call finish. -/
def serialize_into_sink {σ : Type} (sink : EventSinkM σ) (s : σ) (value : SerdeValue) :
    Except Err σ := do
  let s ← serializeValue sink s value
  sink.finish s

/-- An array builder: a sink whose final state yields an array
(the ArrayBuilder trait of internal/sink.rs, lines 248 to 255). -/
structure BuilderM (σ α : Type) extends EventSinkM σ where
  buildArray : σ → Except Err α

/-- Observable outcome of an entry point in a process: a returned value, a
returned structured error, or a process abort (a Rust panic). -/
inductive Outcome (α : Type) where
  | ok (a : α)
  | err (e : Err)
  | panicked
deriving Repr, DecidableEq

/--
serialize_into_array (internal/mod.rs, lines 106 to 126), parametrized by the
already-constructed per-field builder (build_array_builder lives in the
generic_sinks module, outside the provided sources).  The source wraps the
builder in a StripOuterSequenceSink, serializes the items and then calls
unwrap on that Result: a serialization failure aborts the process instead of
being returned, which the embedding records as the panicked outcome.  The
final build_array Result is propagated normally.
-/
def serialize_into_array {σ α : Type} (builder : BuilderM σ α) (init : σ)
    (items : SerdeValue) : Outcome α :=
  match serialize_into_sink (stripSink builder.toEventSinkM) (.waitForStart, init) items with
  | .error _ => .panicked
  | .ok s =>
    match builder.buildArray s.2 with
    | .ok a => .ok a
    | .error e => .err e

/-- The recording builder: the recording sink together with a build step that
returns the recorded events; always succeeds. -/
def recordingBuilder : BuilderM (List Event) (List Event) where
  toEventSinkM := recordingSink
  buildArray s := .ok s

/-! ### Utf8Builder (serialization_ng/utf8_builder.rs) -/

/-- The two Arrow offset widths an Utf8Builder can be instantiated at
(the Offset trait: i32 for Utf8, i64 for LargeUtf8). -/
inductive OffsetWidth where
  | o32
  | o64
deriving DecidableEq, Repr

/-- Largest value an offset of the given width can hold. -/
def OffsetWidth.maxOffset : OffsetWidth → Int
  | .o32 => 2 ^ 31 - 1
  | .o64 => 2 ^ 63 - 1

/--
Modelled from the spec: MutableOffsetBuffer (internal/common, not among the
provided sources).  Per spec section 3 the offsets buffer starts at a single
zero entry and grows by one entry per row; current tracks the running item
total (the value of the last offset).  Pushing a row of n items appends
current + n after checking it fits the offset width, failing with an overflow
error otherwise (spec section 4.1); push_current_items appends current
unchanged (a zero-length row).
-/
structure MutableOffsetBuffer where
  offsets : List Int
  current : Int
deriving DecidableEq, Repr

/-- Default MutableOffsetBuffer: one zero offset, zero items so far. -/
def MutableOffsetBuffer.default : MutableOffsetBuffer where
  offsets := [0]
  current := 0

/-- Push a row of numItems items, with the offset-width overflow check. -/
def MutableOffsetBuffer.push (w : OffsetWidth) (b : MutableOffsetBuffer)
    (numItems : Nat) : Except Err MutableOffsetBuffer :=
  if b.current + numItems ≤ w.maxOffset then
    .ok ⟨b.offsets ++ [b.current + numItems], b.current + numItems⟩
  else
    .error (.custom "offset overflow")

/-- Push a zero-length row: append the current item total unchanged. -/
def MutableOffsetBuffer.pushCurrentItems (b : MutableOffsetBuffer) : MutableOffsetBuffer :=
  ⟨b.offsets ++ [b.current], b.current⟩

/--
Modelled from the spec: push_validity (serialization_ng/utils, not among the
provided sources).  Per spec sections 3 and 4.3 a nullable builder keeps a
validity bitmap with one entry per row; writing an explicit null into a
non-nullable builder is an error, writing a valid row into a non-nullable
builder records nothing.
-/
def pushValidity (validity : Option (List Bool)) (value : Bool) :
    Except Err (Option (List Bool)) :=
  match validity with
  | .some bits => .ok (.some (bits ++ [value]))
  | .none => if value then .ok .none else .error (.custom "cannot push null to non-nullable field")

/-- Modelled from the spec: push_validity_default pushes a validity false
entry when the builder is nullable and records nothing otherwise
(spec section 4.3, the serialize_default rule). -/
def pushValidityDefault (validity : Option (List Bool)) : Option (List Bool) :=
  match validity with
  | .some bits => .some (bits ++ [false])
  | .none => .none

/-- Utf8Builder (serialization_ng/utf8_builder.rs, lines 8 to 23): optional
validity bitmap, offsets buffer and raw byte buffer. -/
structure Utf8Builder where
  validity : Option (List Bool)
  offsets : MutableOffsetBuffer
  buffer : List Nat
deriving DecidableEq, Repr

/-- Utf8Builder::new: validity present exactly when the field is nullable. -/
def Utf8Builder.new (isNullable : Bool) : Utf8Builder where
  validity := if isNullable then .some [] else .none
  offsets := .default
  buffer := []

/-- Utf8Builder serialize_default (utf8_builder.rs, lines 30 to 34). -/
def Utf8Builder.serializeDefault (b : Utf8Builder) : Except Err Utf8Builder :=
  .ok ⟨pushValidityDefault b.validity, b.offsets.pushCurrentItems, b.buffer⟩

/-- Utf8Builder serialize_none (utf8_builder.rs, lines 36 to 40). -/
def Utf8Builder.serializeNone (b : Utf8Builder) : Except Err Utf8Builder :=
  match pushValidity b.validity false with
  | .error e => .error e
  | .ok validity => .ok ⟨validity, b.offsets.pushCurrentItems, b.buffer⟩

/-- Utf8Builder serialize_str (utf8_builder.rs, lines 46 to 52): push a
validity true entry, push the byte length of the string onto the offsets,
extend the byte buffer with the string bytes.  The Rust str payload is
embedded as its UTF-8 byte list, the view the source manipulates through
v.len() and v.as_bytes(). -/
def Utf8Builder.serializeStr (w : OffsetWidth) (b : Utf8Builder) (v : List Nat) :
    Except Err Utf8Builder :=
  match pushValidity b.validity true with
  | .error e => .error e
  | .ok validity =>
    match b.offsets.push w v.length with
    | .error e => .error e
    | .ok offsets => .ok ⟨validity, offsets, b.buffer ++ v⟩

/-- One row-write call on an Utf8Builder: the three operations claim C6
ranges over. -/
inductive Utf8Op where
  | str (s : List Nat)
  | noneOp
  | defaultOp
deriving Repr

/-- Apply one row-write to the builder. -/
def Utf8Builder.applyOp (w : OffsetWidth) (b : Utf8Builder) : Utf8Op → Except Err Utf8Builder
  | .str s => b.serializeStr w s
  | .noneOp => b.serializeNone
  | .defaultOp => b.serializeDefault

/-- Run a sequence of row-writes from a given builder state. -/
def Utf8Builder.runOps (w : OffsetWidth) (b : Utf8Builder) :
    List Utf8Op → Except Err Utf8Builder
  | [] => .ok b
  | op :: rest =>
    match b.applyOp w op with
    | .error e => .error e
    | .ok b1 => b1.runOps w rest

/-! ### Integer deserializer (deserialization/integer_deserializer.rs) -/

/-- The eight fixed-width integer kinds of the Integer trait. -/
inductive IntWidth where
  | i8
  | i16
  | i32
  | i64
  | u8
  | u16
  | u32
  | u64
deriving DecidableEq, Repr

/-- Smallest value representable at the width. -/
def IntWidth.minVal : IntWidth → Int
  | .i8 => -(2 ^ 7)
  | .i16 => -(2 ^ 15)
  | .i32 => -(2 ^ 31)
  | .i64 => -(2 ^ 63)
  | .u8 | .u16 | .u32 | .u64 => 0

/-- Largest value representable at the width. -/
def IntWidth.maxVal : IntWidth → Int
  | .i8 => 2 ^ 7 - 1
  | .i16 => 2 ^ 15 - 1
  | .i32 => 2 ^ 31 - 1
  | .i64 => 2 ^ 63 - 1
  | .u8 => 2 ^ 8 - 1
  | .u16 => 2 ^ 16 - 1
  | .u32 => 2 ^ 32 - 1
  | .u64 => 2 ^ 64 - 1

/-- Whether the value fits the width. -/
def IntWidth.fits (w : IntWidth) (v : Int) : Prop :=
  w.minVal ≤ v ∧ v ≤ w.maxVal

instance (w : IntWidth) (v : Int) : Decidable (w.fits v) := by
  unfold IntWidth.fits; infer_instance

/-- Errors a random-access deserializer can produce; overflow errors carry
the offending value, as the formatted source messages do. -/
inductive DeErr where
  | overflow (v : Int)
  | outOfRange (idx : Nat)
  | requiredValueMissing (idx : Nat)
  | conversion (msg : String)
deriving DecidableEq, Repr

/-- A committed primitive integer column: its physical width, the stored
values (each within the width, stated as a hypothesis where needed) and the
optional validity bitmap. -/
structure IntColumn where
  width : IntWidth
  values : List Int
  validity : Option (List Bool)
deriving Repr

/--
Modelled from the spec: the ViewAccess helpers is_some and get_required
(internal/utils/array_view_ext.rs, not among the provided sources).  Per spec
sections 4.4 and 7, an index outside the buffer bounds fails with an
out-of-range error; is_some answers the null check against the validity
bitmap (absent bitmap: every row valid).
-/
def IntColumn.isSomeAt (c : IntColumn) (idx : Nat) : Except DeErr Bool :=
  match c.values.get? idx with
  | .none => .error (.outOfRange idx)
  | .some _ =>
    match c.validity with
    | .none => .ok true
    | .some bits => .ok (bits.getD idx false)

/-- get_required: the value at the index, failing when the row is null or the
index is out of bounds (modelled from the spec, see isSomeAt). -/
def IntColumn.getRequired (c : IntColumn) (idx : Nat) : Except DeErr Int :=
  match c.isSomeAt idx with
  | .error e => .error e
  | .ok true =>
    match c.values.get? idx with
    | .some v => .ok v
    | .none => .error (.outOfRange idx)
  | .ok false => .error (.requiredValueMissing idx)

/--
Modelled from the spec: the Integer trait conversions into_i8 .. into_u64
(their impls are generated outside the provided sources).  Per spec section
4.4, a read at any integer width performs a runtime range check and fails
with an overflow error including the offending value when it does not fit
the requested width; a fitting value is returned exactly.
-/
def intoWidth (target : IntWidth) (v : Int) : Except DeErr Int :=
  if target.fits v then .ok v else .error (.overflow v)

/-- Which visitor callback a deserialization request triggered, with its
payload: the observable behavior of a deserializer call. -/
inductive Visit where
  | visitInt (w : IntWidth) (v : Int)
  | visitNone
  | visitString (s : String)
deriving DecidableEq, Repr

/-- The deserialize_i8 .. deserialize_u64 methods of the
RandomAccessDeserializer impl for IntegerDeserializer
(integer_deserializer.rs, lines 80 to 110): get_required, convert to the
requested width, hand the converted value to the corresponding visitor
callback. -/
def IntColumn.deserializeAt (c : IntColumn) (target : IntWidth) (idx : Nat) :
    Except DeErr Visit :=
  match c.getRequired idx with
  | .error e => .error e
  | .ok v =>
    match intoWidth target v with
    | .error e => .error e
    | .ok w => .ok (.visitInt target w)

/-! ### Date deserializer (deserialization/date_deserializer.rs) -/

/--
Modelled from the spec: the external calendar library (chrono) used by
get_string_repr.  Converts a count of days since 1970-01-01 into the
proleptic Gregorian calendar date (year, month, day) it denotes, the
arithmetic the expression UNIX_EPOCH plus a day Duration performs.
-/
def civilFromDays (z : Int) : Int × Nat × Nat :=
  let z := z + 719468
  let era := Int.fdiv z 146097
  let doe := (z - era * 146097).toNat
  let yoe := (doe - doe / 1460 + doe / 36524 - doe / 146096) / 365
  let doy := doe - (365 * yoe + yoe / 4 - yoe / 100)
  let mp := (5 * doy + 2) / 153
  let d := doy - (153 * mp + 2) / 5 + 1
  let m := if mp < 10 then mp + 3 else mp - 9
  ((yoe : Int) + era * 400 + (if m ≤ 2 then 1 else 0), m, d)

/-- Calendar year denoted by a day count since the epoch. -/
def yearOfDays (z : Int) : Int := (civilFromDays z).1

/-- Modelled from the spec: the smallest calendar year the external calendar
library (chrono NaiveDate) can represent; adding a day Duration that leaves
this range aborts instead of returning. -/
def chronoMinYear : Int := -262144

/-- Modelled from the spec: the largest calendar year chrono NaiveDate can
represent. -/
def chronoMaxYear : Int := 262143

/-- Base-ten digits, least significant first, by fuelled recursion. -/
def natDigitsAux : Nat → Nat → List Nat
  | 0, _ => []
  | fuel + 1, n => if n = 0 then [] else (n % 10) :: natDigitsAux fuel (n / 10)

/-- Base-ten digits of a natural number, least significant first. -/
def natDecimalDigitsList (n : Nat) : List Nat := natDigitsAux n n

/-- Decimal digit string of a natural number (no sign, no padding). -/
def decimalDigits (n : Nat) : String :=
  if n = 0 then "0"
  else String.mk ((natDecimalDigitsList n).reverse.map (fun d => Char.ofNat (48 + d)))

/-- Left-pad a string with zeros up to the width; a longer string is kept
whole, as the Rust minimum-width format specifier does. -/
def zeroPad (w : Nat) (s : String) : String :=
  String.mk (List.replicate (w - s.length) '0') ++ s

/-- Modelled from the spec: the default rendering the external calendar
library gives a date with a non-negative year (ISO 8601: the year zero-padded
to four digits, a plus sign prefix beyond four digits). -/
def defaultDateDisplay (y : Int) (m d : Nat) : String :=
  (if y ≤ 9999 then zeroPad 4 (decimalDigits y.toNat) else "+" ++ decimalDigits y.toNat)
    ++ "-" ++ zeroPad 2 (decimalDigits m) ++ "-" ++ zeroPad 2 (decimalDigits d)

/-- The formatted string of the negative-year branch of get_string_repr
(date_deserializer.rs, lines 61 to 67): an explicit minus sign, the year
magnitude zero-padded to width six, then zero-padded month and day. -/
def negativeYearDisplay (y : Int) (m d : Nat) : String :=
  "-" ++ zeroPad 6 (decimalDigits (-y).toNat)
    ++ "-" ++ zeroPad 2 (decimalDigits m) ++ "-" ++ zeroPad 2 (decimalDigits d)

/--
DateDeserializer::get_string_repr at I = i32, the Date32 instantiation
(date_deserializer.rs, lines 45 to 71).  DAY_TO_VALUE_FACTOR is one, so the
stored value is the day count; the i64 conversion of an i32 cannot fail.
The epoch-plus-days addition aborts (none) when the resulting year leaves the
calendar library range; otherwise a negative year takes the explicitly
padded format and a non-negative year the default rendering.
-/
def date32StringRepr (ts : Int) : Option String :=
  if yearOfDays ts < chronoMinYear ∨ chronoMaxYear < yearOfDays ts then .none
  else if yearOfDays ts < 0 then
    .some (negativeYearDisplay (yearOfDays ts)
      (civilFromDays ts).2.1 (civilFromDays ts).2.2)
  else
    .some (defaultDateDisplay (yearOfDays ts)
      (civilFromDays ts).2.1 (civilFromDays ts).2.2)

/-- The two physical date kinds, selecting the DatePrimitive instantiation of
DateDeserializer (I = i32 for Date32, I = i64 for Date64). -/
inductive DateKind where
  | date32
  | date64
deriving DecidableEq, Repr

/-- A committed date column: kind, raw stored integers, optional validity. -/
structure DateColumn where
  kind : DateKind
  values : List Int
  validity : Option (List Bool)
deriving Repr

/-- is_some for a date column (modelled from the spec, as for IntColumn). -/
def DateColumn.isSomeAt (c : DateColumn) (idx : Nat) : Except DeErr Bool :=
  match c.values.get? idx with
  | .none => .error (.outOfRange idx)
  | .some _ =>
    match c.validity with
    | .none => .ok true
    | .some bits => .ok (bits.getD idx false)

/-- get_required for a date column (modelled from the spec, as for
IntColumn). -/
def DateColumn.getRequired (c : DateColumn) (idx : Nat) : Except DeErr Int :=
  match c.isSomeAt idx with
  | .error e => .error e
  | .ok true =>
    match c.values.get? idx with
    | .some v => .ok v
    | .none => .error (.outOfRange idx)
  | .ok false => .error (.requiredValueMissing idx)

/-- The TryInto i32 conversion the generic deserialize_i32 performs on the
stored value: the identity at I = i32, a checked narrowing at I = i64. -/
def dateTryIntoI32 (k : DateKind) (v : Int) : Except DeErr Int :=
  match k with
  | .date32 => .ok v
  | .date64 => if IntWidth.i32.fits v then .ok v else .error (.conversion "cannot convert to i32")

/-- RandomAccessDeserializer deserialize_i32 for DateDeserializer
(date_deserializer.rs, lines 176 to 185): the raw stored value, converted to
i32, handed to visit_i32. -/
def DateColumn.deserializeI32 (c : DateColumn) (idx : Nat) : Except DeErr Visit :=
  match c.getRequired idx with
  | .error e => .error e
  | .ok v =>
    match dateTryIntoI32 c.kind v with
    | .error e => .error e
    | .ok w => .ok (.visitInt .i32 w)

/-- RandomAccessDeserializer deserialize_any for DateDeserializer
(date_deserializer.rs, lines 154 to 163): null check, then a dispatch to
deserialize_i32 for a non-null row and visit_none for a null row.  The
dispatch target is deserialize_i32 for both DatePrimitive instantiations. -/
def DateColumn.deserializeAny (c : DateColumn) (idx : Nat) : Except DeErr Visit :=
  match c.isSomeAt idx with
  | .error e => .error e
  | .ok true => c.deserializeI32 idx
  | .ok false => .ok .visitNone

/-! ### Dictionary and struct deserializer construction
(arrow2_impl/deserialization.rs) -/

/--
Modelled from the spec: the logical data-type tags of GenericField
(internal/schema, not among the provided sources; spec section 3 lists the
kinds).  Parameters of parametrized kinds are dropped: the constructions
under verification dispatch on the tag alone.
-/
inductive GenericDataType where
  | null
  | bool
  | i8
  | i16
  | i32
  | i64
  | u8
  | u16
  | u32
  | u64
  | f16
  | f32
  | f64
  | decimal128
  | date32
  | date64
  | time32
  | time64
  | timestamp
  | duration
  | utf8
  | largeUtf8
  | binary
  | largeBinary
  | strct
  | list
  | largeList
  | fixedSizeList
  | map
  | dictionary
  | union
deriving DecidableEq, Repr, Fintype

/-- Modelled from the spec (section 3): a GenericField describes one logical
column by name, data-type tag, nullability and ordered child fields. -/
structure GenericField where
  name : String
  dataType : GenericDataType
  nullable : Bool
  children : List GenericField

/-- The external arrow2 array objects the deserializer constructions consume,
reduced to what the downcasts in arrow2_impl/deserialization.rs observe: a
dictionary array knows its key width and wraps a values array, an utf8 array
knows its offset width, anything else carries its tag; every array has a
length. -/
inductive A2Array where
  | dictionary (key : IntWidth) (keysLen : Nat) (values : A2Array)
  | utf8 (offset : OffsetWidth) (len : Nat)
  | primitive (dt : GenericDataType) (len : Nat)
deriving DecidableEq, Repr

/-- Length of an arrow2 array (a dictionary array has one key per row). -/
def A2Array.len : A2Array → Nat
  | .dictionary _ n _ => n
  | .utf8 _ n => n
  | .primitive _ n => n

/-- The constructed deserializer, reduced to its dispatch-relevant shape: a
dictionary deserializer records its key width and value offset width
(16 distinct variants of the ArrayDeserializer enumeration), any other
deserializer records the data-type tag it was built for. -/
inductive DeserTag where
  | dictionaryUtf8 (key : IntWidth) (offset : OffsetWidth)
  | nonDictionary (dt : GenericDataType)
deriving DecidableEq, Repr

/-- The typed helper of build_dictionary_deserializer
(arrow2_impl/deserialization.rs, lines 60 to 86): downcast the array to a
dictionary array of the chosen key width (failing otherwise), downcast its
values array to an utf8 array of the chosen offset width (failing otherwise),
and assemble the dictionary deserializer. -/
def typedDictionary (key : IntWidth) (offset : OffsetWidth) (array : A2Array) :
    Except Err DeserTag :=
  match array with
  | .dictionary k _ values =>
    if k = key then
      match values with
      | .utf8 o _ =>
        if o = offset then .ok (.dictionaryUtf8 key offset)
        else .error (.custom "invalid values")
      | _ => .error (.custom "invalid values")
    else .error (.custom "cannot convert array into dictionary array")
  | _ => .error (.custom "cannot convert array into dictionary array")

/-- The sixteen-arm key/value dispatch table of build_dictionary_deserializer
(arrow2_impl/deserialization.rs, lines 40 to 57), one entry per source match
arm; the catch-all is none. -/
def dictCombo : GenericDataType → GenericDataType → Option (IntWidth × OffsetWidth)
  | .u8, .utf8 => .some (.u8, .o32)
  | .u16, .utf8 => .some (.u16, .o32)
  | .u32, .utf8 => .some (.u32, .o32)
  | .u64, .utf8 => .some (.u64, .o32)
  | .i8, .utf8 => .some (.i8, .o32)
  | .i16, .utf8 => .some (.i16, .o32)
  | .i32, .utf8 => .some (.i32, .o32)
  | .i64, .utf8 => .some (.i64, .o32)
  | .u8, .largeUtf8 => .some (.u8, .o64)
  | .u16, .largeUtf8 => .some (.u16, .o64)
  | .u32, .largeUtf8 => .some (.u32, .o64)
  | .u64, .largeUtf8 => .some (.u64, .o64)
  | .i8, .largeUtf8 => .some (.i8, .o64)
  | .i16, .largeUtf8 => .some (.i16, .o64)
  | .i32, .largeUtf8 => .some (.i32, .o64)
  | .i64, .largeUtf8 => .some (.i64, .o64)
  | _, _ => .none

/-- build_dictionary_deserializer (arrow2_impl/deserialization.rs, lines 27
to 87): fetch the two child fields (failing when missing), dispatch on their
data-type pair through the sixteen supported combinations, fail on any other
pairing. -/
def build_dictionary_deserializer (field : GenericField) (array : A2Array) :
    Except Err DeserTag :=
  match field.children.get? 0 with
  | .none => .error (.custom "Missing key field")
  | .some keyField =>
    match field.children.get? 1 with
    | .none => .error (.custom "Missing key field")
    | .some valueField =>
      match dictCombo keyField.dataType valueField.dataType with
      | .some (key, offset) => typedDictionary key offset array
      | .none => .error (.custom "invalid dicitonary key / value data type")

/-- Modelled from the spec: construction of the per-physical-type
deserializer for a non-dictionary field (spec sections 4.4 and 6; the
ArrayDeserializer::new overload called from build_array_deserializer is not
among the provided sources).  The claims need only that it is a function of
field and array; the embedding records the data-type tag. -/
def nonDictionaryNew (field : GenericField) (_array : A2Array) : Except Err DeserTag :=
  .ok (.nonDictionary field.dataType)

/-- build_array_deserializer (arrow2_impl/deserialization.rs, lines 16 to
25): dictionary fields go through build_dictionary_deserializer, every other
field through the generic construction. -/
def build_array_deserializer (field : GenericField) (array : A2Array) :
    Except Err DeserTag :=
  match field.dataType with
  | .dictionary => build_dictionary_deserializer field array
  | _ => nonDictionaryNew field array

/-- The per-pair loop of build_struct_fields (arrow2_impl/deserialization.rs,
lines 102 to 109): for each field/array pair, check the array length against
the common length, then build the child deserializer and pair it with the
field name. -/
def buildStructFieldsGo (len : Nat) :
    List GenericField → List A2Array → Except Err (List (String × DeserTag))
  | [], _ => .ok []
  | _ :: _, [] => .ok []
  | f :: fs, a :: arrs =>
    if a.len ≠ len then .error (.custom "arrays of different lengths are not supported")
    else
      match build_array_deserializer f a with
      | .error e => .error e
      | .ok d =>
        match buildStructFieldsGo len fs arrs with
        | .error e => .error e
        | .ok rest => .ok ((f.name, d) :: rest)

/-- The common length of build_struct_fields: the first array's length, or
zero with no arrays (arrow2_impl/deserialization.rs, line 100). -/
def commonLen (arrays : List A2Array) : Nat :=
  match arrays with
  | [] => 0
  | a :: _ => a.len

/-- build_struct_fields (arrow2_impl/deserialization.rs, lines 89 to 112):
fail when the field and array counts differ; take the first array's length
(zero when empty) as the common length; build one named child deserializer
per pair, checking every array against the common length; return the
deserializers with the common length. -/
def build_struct_fields (fields : List GenericField) (arrays : List A2Array) :
    Except Err (List (String × DeserTag) × Nat) :=
  if fields.length ≠ arrays.length then
    .error (.custom "different number of fields and arrays")
  else
    match buildStructFieldsGo (commonLen arrays) fields arrays with
    | .ok ds => .ok (ds, commonLen arrays)
    | .error e => .error e

/-! ### Theorems for the claims -/

/-- Emitting the per-byte loop into the recording sink appends an item
marker and a u8 event per byte. -/
lemma recording_bytes_loop (bs : List Nat) (s : List Event) :
    serializeBytesLoop recordingSink s bs
    = .ok (s ++ bs.flatMap (fun b => [Event.item, Event.u8 b])) := by
  induction bs generalizing s with
  | nil => simp [serializeBytesLoop]
  | cons b rest ih =>
    have hstep : serializeBytesLoop recordingSink s (b :: rest)
        = serializeBytesLoop recordingSink ((s ++ [Event.item]) ++ [Event.u8 b]) rest := rfl
    rw [hstep, ih]
    simp

/--
Claim C10: for every byte-sequence value, the generic-to-event adapter emits
a StartSequence event, then for each byte in order an Item marker followed by
a U8 event carrying that byte, then an EndSequence event; the emitted trace
contains no other event (in particular the event model has no dedicated
bytes event).
-/
theorem claim_C10_serialize_bytes_trace (bs : List Nat) (s : List Event) :
    serializeBytes recordingSink s bs
      = .ok (s ++ [Event.startSequence]
              ++ bs.flatMap (fun b => [Event.item, Event.u8 b])
              ++ [Event.endSequence]) := by
  have hstep : serializeBytes recordingSink s bs
      = Except.bind (serializeBytesLoop recordingSink (s ++ [Event.startSequence]) bs)
          (fun s => recordingSink.accept s Event.endSequence) := rfl
  rw [hstep, recording_bytes_loop]
  simp [recordingSink, Except.bind]

/--
Claim C2 counterexample: on the event stream StartSequence, Item, I64 5,
EndSequence the source automaton (stripStep) forwards only the value and
returns to WaitForStart, while the transition table stated by the claim
(claimedStripStep) forwards the value and the end marker and stops in
WaitForItem: the code does not follow the claimed transitions.
-/
theorem claim_C2_counterexample :
    stripRun .waitForStart [.startSequence, .item, .i64 5, .endSequence]
      = .ok (.waitForStart, [.i64 5])
    ∧ claimedStripRun .waitForStart [.startSequence, .item, .i64 5, .endSequence]
      = .ok (.waitForItem, [.i64 5, .endSequence])
    ∧ stripRun .waitForStart [.startSequence, .item, .i64 5, .endSequence]
      ≠ claimedStripRun .waitForStart [.startSequence, .item, .i64 5, .endSequence] :=
  ⟨rfl, rfl, fun h => nomatch h⟩

/--
Claim C2 amended: the outer-sequence stripper follows these transitions.
From WaitForStart any start marker moves to WaitForItem (not forwarded).
From WaitForItem an Item marker moves to Item 0 (not forwarded) and an end
marker returns to WaitForStart (not forwarded).  In Item depth: a start
marker is forwarded and increments depth; an end marker at depth one is
forwarded and returns to WaitForItem, at greater depth it is forwarded and
decrements depth, and at depth zero it is an error; a value event at depth
zero is forwarded and returns to WaitForItem (row complete), at positive
depth it is forwarded unchanged; a marker event is forwarded unchanged.  Any
other event fails with an invalid-event-in-state error carrying the event
and the state.
-/
theorem claim_C2_amended (ev : Event) (d : Nat) :
    (ev.classify = .start →
      stripStep .waitForStart ev = .ok (.waitForItem, [])
      ∧ stripStep (.item d) ev = .ok (.item (d + 1), [ev])
      ∧ stripStep .waitForItem ev = .error (.invalidEventInState ev .waitForItem))
    ∧ (ev.classify = .stop →
      stripStep .waitForItem ev = .ok (.waitForStart, [])
      ∧ stripStep (.item 1) ev = .ok (.waitForItem, [ev])
      ∧ stripStep (.item (d + 2)) ev = .ok (.item (d + 1), [ev])
      ∧ stripStep (.item 0) ev = .error (.invalidEventInState ev (.item 0))
      ∧ stripStep .waitForStart ev = .error (.invalidEventInState ev .waitForStart))
    ∧ (ev.classify = .value →
      stripStep (.item 0) ev = .ok (.waitForItem, [ev])
      ∧ stripStep (.item (d + 1)) ev = .ok (.item (d + 1), [ev])
      ∧ stripStep .waitForStart ev = .error (.invalidEventInState ev .waitForStart)
      ∧ stripStep .waitForItem ev = .error (.invalidEventInState ev .waitForItem))
    ∧ (ev.classify = .marker →
      stripStep (.item d) ev = .ok (.item d, [ev])
      ∧ stripStep .waitForStart ev = .error (.invalidEventInState ev .waitForStart)
      ∧ (ev = .item → stripStep .waitForItem ev = .ok (.item 0, []))
      ∧ (ev ≠ .item → stripStep .waitForItem ev = .error (.invalidEventInState ev .waitForItem))) := by
  refine ⟨?_, ?_, ?_, ?_⟩ <;> intro hc <;> unfold stripStep <;> rw [hc] <;>
    first
      | exact ⟨rfl, rfl, rfl⟩
      | exact ⟨rfl, rfl, rfl, rfl⟩
      | exact ⟨rfl, rfl, rfl, rfl, rfl⟩
      | exact ⟨rfl, rfl, fun hi => by simp only [if_pos hi],
          fun hi => by simp only [if_neg hi]⟩

/-- Witness for claim C2 amended: a value event at Item 0 is forwarded and
completes the row. -/
theorem claim_C2_amended_witness :
    stripStep (.item 0) (.i64 5) = .ok (.waitForItem, [.i64 5]) :=
  ((claim_C2_amended (.i64 5) 0).2.2.1 rfl).1

/--
Claim C1 (code bug): serialize_into_array does not return the structured
error serialization produces; internal/mod.rs line 124 calls unwrap on the
serialize_into_sink result, so a malformed input (here the scalar 5 as the
items argument, which the outer-sequence stripper rejects in state
WaitForStart) aborts the process.  The second conjunct shows the structured
error the pipeline produced and unwrap discards.
-/
theorem claim_C1_code_bug :
    serialize_into_array recordingBuilder [] (.int 5) = .panicked
    ∧ serialize_into_sink (stripSink recordingBuilder.toEventSinkM)
        (.waitForStart, []) (.int 5)
      = .error (.invalidEventInState (.i64 5) .waitForStart) := ⟨rfl, rfl⟩

/--
Claim C5: for every integer column and every non-null in-bounds row, a read
at any integer width returns the stored value exactly when it fits the
requested width, and fails with an overflow error carrying the offending
value otherwise.
-/
theorem claim_C5_integer_read_range_check (c : IntColumn) (target : IntWidth)
    (idx : Nat) (v : Int) (hv : c.values.get? idx = .some v)
    (hs : c.isSomeAt idx = .ok true) :
    (target.fits v → c.deserializeAt target idx = .ok (.visitInt target v))
    ∧ (¬ target.fits v → c.deserializeAt target idx = .error (.overflow v)) := by
  have hreq : c.getRequired idx = .ok v := by
    unfold IntColumn.getRequired
    rw [hs, hv]
  constructor <;> intro hf <;>
    · unfold IntColumn.deserializeAt
      rw [hreq]
      unfold intoWidth
      simp [hf]

/-- Witness for claim C5: reading the i64 column holding 300 as u8 fails
with an overflow error carrying 300, exactly as the spec's example says. -/
theorem claim_C5_integer_read_range_check_witness :
    (IntColumn.deserializeAt ⟨.i64, [300], .none⟩ .u8 0) = .error (.overflow 300) :=
  (claim_C5_integer_read_range_check ⟨.i64, [300], .none⟩ .u8 0 300 rfl rfl).2
    (by simp [IntWidth.fits, IntWidth.minVal, IntWidth.maxVal])

/--
Claim C9: on a nullable Utf8Builder, serialize_none and serialize_default
leave the value buffer unchanged, append exactly one validity false entry,
and append exactly one offset entry equal to the previous last offset (a
zero-length payload); only serialize_str appends to the value buffer, and a
non-empty string strictly grows it.
-/
theorem claim_C9_null_rows_frame (w : OffsetWidth) (b : Utf8Builder) (bits : List Bool)
    (hb : b.validity = .some bits)
    (hl : b.offsets.offsets.getLast? = .some b.offsets.current) :
    b.serializeNone
      = .ok ⟨.some (bits ++ [false]),
             ⟨b.offsets.offsets ++ [b.offsets.current], b.offsets.current⟩, b.buffer⟩
    ∧ b.serializeDefault
      = .ok ⟨.some (bits ++ [false]),
             ⟨b.offsets.offsets ++ [b.offsets.current], b.offsets.current⟩, b.buffer⟩
    ∧ b.offsets.offsets.getLast? = .some b.offsets.current
    ∧ (∀ s b1, b.serializeStr w s = .ok b1 → b1.buffer = b.buffer ++ s) := by
  refine ⟨?_, ?_, hl, ?_⟩
  · unfold Utf8Builder.serializeNone pushValidity
    rw [hb]
    rfl
  · unfold Utf8Builder.serializeDefault pushValidityDefault
    rw [hb]
    rfl
  · intro s b1 h1
    unfold Utf8Builder.serializeStr at h1
    rw [hb] at h1
    unfold pushValidity at h1
    unfold MutableOffsetBuffer.push at h1
    by_cases hfit : b.offsets.current + s.length ≤ w.maxOffset
    · rw [if_pos hfit] at h1
      cases h1
      rfl
    · rw [if_neg hfit] at h1
      cases h1

/-- Witness for claim C9: the fresh nullable builder after serialize_none. -/
theorem claim_C9_null_rows_frame_witness :
    (Utf8Builder.new true).serializeNone
      = .ok ⟨.some ([] ++ [false]),
             ⟨(Utf8Builder.new true).offsets.offsets ++ [(Utf8Builder.new true).offsets.current],
              (Utf8Builder.new true).offsets.current⟩,
             (Utf8Builder.new true).buffer⟩ :=
  (claim_C9_null_rows_frame .o32 (Utf8Builder.new true) [] rfl rfl).1

/--
Claim C4 counterexample: on a Date64 column holding 86400000 (one day in
milliseconds) the any-typed read replays the stored value through visit_i32,
not visit_i64: deserialize_any dispatches to deserialize_i32 for both date
kinds (date_deserializer.rs line 157), so the claimed i64 visit for Date64
does not happen.
-/
theorem claim_C4_counterexample :
    DateColumn.deserializeAny ⟨.date64, [86400000], .none⟩ 0
      = .ok (.visitInt .i32 86400000)
    ∧ DateColumn.deserializeAny ⟨.date64, [86400000], .none⟩ 0
      ≠ .ok (.visitInt .i64 86400000) :=
  ⟨rfl, fun h => nomatch h⟩

/--
Claim C4 amended: for every date column and every non-null in-bounds row,
the any-typed read dispatches to deserialize_i32 for both kinds: a Date32
row is replayed as an i32 visit of the stored 32-bit value, and a Date64 row
is narrowed to i32 — replayed as an i32 visit when the stored 64-bit value
fits in i32 and failing with a conversion error otherwise.
-/
theorem claim_C4_amended_any_dispatch (c : DateColumn) (idx : Nat) (v : Int)
    (hv : c.values.get? idx = .some v) (hs : c.isSomeAt idx = .ok true) :
    (c.kind = .date32 → c.deserializeAny idx = .ok (.visitInt .i32 v))
    ∧ (c.kind = .date64 → IntWidth.i32.fits v →
        c.deserializeAny idx = .ok (.visitInt .i32 v))
    ∧ (c.kind = .date64 → ¬ IntWidth.i32.fits v →
        c.deserializeAny idx = .error (.conversion "cannot convert to i32")) := by
  have hreq : c.getRequired idx = .ok v := by
    unfold DateColumn.getRequired
    rw [hs, hv]
  have hany : c.deserializeAny idx = c.deserializeI32 idx := by
    unfold DateColumn.deserializeAny
    rw [hs]
  refine ⟨fun hk => ?_, fun hk hf => ?_, fun hk hf => ?_⟩ <;>
    · rw [hany]
      unfold DateColumn.deserializeI32
      rw [hreq, hk]
      unfold dateTryIntoI32
      simp [*]

/-- Witness for claim C4 amended: the Date64 column holding one day in
milliseconds is replayed as an i32 visit. -/
theorem claim_C4_amended_any_dispatch_witness :
    DateColumn.deserializeAny ⟨.date64, [86400000], .none⟩ 0
      = .ok (.visitInt .i32 86400000) :=
  (claim_C4_amended_any_dispatch ⟨.date64, [86400000], .none⟩ 0 86400000 rfl rfl).2.1
    rfl (by simp [IntWidth.fits, IntWidth.minVal, IntWidth.maxVal])

/-- The eight integer data-type tags (the dictionary key kinds). -/
def GenericDataType.isIntegerType : GenericDataType → Bool
  | .i8 | .i16 | .i32 | .i64 | .u8 | .u16 | .u32 | .u64 => true
  | _ => false

set_option maxRecDepth 4000 in
/-- The dispatch table of build_dictionary_deserializer hits exactly the
pairs of an integer key tag with an utf8 or large-utf8 value tag. -/
lemma dictCombo_isSome_iff (k v : GenericDataType) :
    (dictCombo k v).isSome = true
      ↔ (k.isIntegerType = true ∧ (v = .utf8 ∨ v = .largeUtf8)) := by
  revert k v
  decide

set_option maxRecDepth 8000 in
/--
Claim C7: constructing a deserializer for a dictionary-encoded column
succeeds exactly for the sixteen combinations of an integer key type with a
Utf8 or LargeUtf8 value type — for such a pairing a matching dictionary
array yields a deserializer, for every other pairing construction fails on
every array — and the dispatch table has exactly sixteen entries.
-/
theorem claim_C7_dictionary_pairings (field kf vf : GenericField)
    (h : field.children = [kf, vf]) :
    ((kf.dataType.isIntegerType = true ∧ (vf.dataType = .utf8 ∨ vf.dataType = .largeUtf8))
      ↔ ∃ a, (build_dictionary_deserializer field a).isOk = true)
    ∧ (Finset.univ.filter (fun p : GenericDataType × GenericDataType =>
        (dictCombo p.1 p.2).isSome = true)).card = 16 := by
  have hget0 : field.children.get? 0 = .some kf := by rw [h]; rfl
  have hget1 : field.children.get? 1 = .some vf := by rw [h]; rfl
  constructor
  · constructor
    · intro hp
      have hsome : (dictCombo kf.dataType vf.dataType).isSome = true :=
        (dictCombo_isSome_iff _ _).mpr hp
      obtain ⟨⟨kw, ow⟩, hcombo⟩ := Option.isSome_iff_exists.mp hsome
      refine ⟨.dictionary kw 0 (.utf8 ow 0), ?_⟩
      unfold build_dictionary_deserializer
      simp only [hget0, hget1, hcombo]
      unfold typedDictionary
      simp [Except.isOk, Except.toBool]
    · rintro ⟨a, ha⟩
      rw [← dictCombo_isSome_iff]
      cases hcombo : dictCombo kf.dataType vf.dataType with
      | some p => simp
      | none =>
        unfold build_dictionary_deserializer at ha
        simp only [hget0, hget1, hcombo] at ha
        exact Bool.noConfusion ha
  · decide

/-- Witness for claim C7: a dictionary field with u8 keys and utf8 values
admits a deserializer for some array. -/
theorem claim_C7_dictionary_pairings_witness :
    ∃ a, (build_dictionary_deserializer
      ⟨"d", .dictionary, false, [⟨"key", .u8, false, []⟩, ⟨"value", .utf8, false, []⟩]⟩
      a).isOk = true :=
  (claim_C7_dictionary_pairings
    ⟨"d", .dictionary, false, [⟨"key", .u8, false, []⟩, ⟨"value", .utf8, false, []⟩]⟩
    ⟨"key", .u8, false, []⟩ ⟨"value", .utf8, false, []⟩ rfl).1.mp
    ⟨rfl, .inl rfl⟩

/-- A successful Except result. -/
lemma except_isOk_ok {ε α : Type} (a : α) : (Except.ok a : Except ε α).isOk = true := rfl

/-- A failed Except result. -/
lemma except_isOk_error {ε α : Type} (e : ε) :
    (Except.error e : Except ε α).isOk = false := rfl

/-- The per-pair loop fails whenever some array's length differs from the
common length (the failure may also come from an earlier pair's child
construction; either way no result is produced). -/
lemma buildStructFieldsGo_err (len : Nat) :
    ∀ (fields : List GenericField) (arrays : List A2Array),
      fields.length = arrays.length → (∃ a ∈ arrays, a.len ≠ len) →
      (buildStructFieldsGo len fields arrays).isOk = false := by
  intro fields
  induction fields with
  | nil =>
    intro arrays hlen hex
    cases arrays with
    | nil => simp at hex
    | cons a arrs => simp at hlen
  | cons f fs ih =>
    intro arrays hlen hex
    cases arrays with
    | nil => simp at hlen
    | cons a arrs =>
      unfold buildStructFieldsGo
      by_cases ha : a.len ≠ len
      · rw [if_pos ha]
        rfl
      · rw [if_neg ha]
        have hex1 : ∃ x ∈ arrs, x.len ≠ len := by
          rcases hex with ⟨x, hx, hxne⟩
          rcases List.mem_cons.mp hx with hxa | hxm
          · exact absurd (hxa ▸ hxne) ha
          · exact ⟨x, hxm, hxne⟩
        have hrec := ih arrs (by simpa using hlen) hex1
        cases hb : build_array_deserializer f a with
        | error e => rfl
        | ok d =>
          cases hgo : buildStructFieldsGo len fs arrs with
          | error e => rfl
          | ok rest => rw [hgo] at hrec; exact absurd hrec (by simp [except_isOk_ok])

/-- The per-pair loop succeeds when every array has the common length and
every per-pair child construction succeeds, pairing names positionally. -/
lemma buildStructFieldsGo_ok (len : Nat) :
    ∀ (fields : List GenericField) (arrays : List A2Array),
      fields.length = arrays.length → (∀ a ∈ arrays, a.len = len) →
      (∀ p ∈ fields.zip arrays, (build_array_deserializer p.1 p.2).isOk = true) →
      ∃ ds, buildStructFieldsGo len fields arrays = .ok ds
        ∧ ds.map Prod.fst = fields.map GenericField.name := by
  intro fields
  induction fields with
  | nil =>
    intro arrays hlen _ _
    cases arrays with
    | nil => exact ⟨[], rfl, rfl⟩
    | cons a arrs => simp at hlen
  | cons f fs ih =>
    intro arrays hlen hall hbuild
    cases arrays with
    | nil => simp at hlen
    | cons a arrs =>
      have ha : a.len = len := hall a (List.mem_cons_self a arrs)
      have hb : (build_array_deserializer f a).isOk = true :=
        hbuild (f, a) (by simp [List.zip_cons_cons])
      obtain ⟨ds, hds, hnames⟩ := ih arrs (by simpa using hlen)
        (fun x hx => hall x (List.mem_cons_of_mem a hx))
        (fun p hp => hbuild p (by simp [List.zip_cons_cons]; exact .inr hp))
      cases hbd : build_array_deserializer f a with
      | error e => rw [hbd] at hb; exact absurd hb (by simp [except_isOk_error])
      | ok d =>
        refine ⟨(f.name, d) :: ds, ?_, ?_⟩
        · unfold buildStructFieldsGo
          rw [if_neg (by simp [ha]), hbd, hds]
        · simpa using hnames

/--
Claim C8 counterexample: with one dictionary field having no children and
one array of matching count and agreeing length, the counts match and every
array has the common length, yet build_struct_fields fails (the per-field
child construction fails): length agreement alone does not guarantee
success, contrary to the claim.
-/
theorem claim_C8_counterexample :
    ([⟨"x", .dictionary, false, []⟩] : List GenericField).length
      = ([.primitive .i32 0] : List A2Array).length
    ∧ (∀ a ∈ ([.primitive .i32 0] : List A2Array),
        a.len = commonLen [.primitive .i32 0])
    ∧ (build_struct_fields [⟨"x", .dictionary, false, []⟩]
        [.primitive .i32 0]).isOk = false := by
  refine ⟨rfl, ?_, rfl⟩
  intro a ha
  simp only [List.mem_singleton] at ha
  rw [ha]
  rfl

/--
Claim C8 amended: constructing a struct deserializer from fields and child
arrays fails at construction time whenever the number of fields differs from
the number of arrays, or any array's length differs from the common length
(the first array's length); when all lengths agree and every per-field child
deserializer construction succeeds, it succeeds, returning one child
deserializer per field paired positionally by field name, together with the
common length.
-/
theorem claim_C8_amended_struct_construction (fields : List GenericField)
    (arrays : List A2Array) :
    (fields.length ≠ arrays.length →
      (build_struct_fields fields arrays).isOk = false)
    ∧ (fields.length = arrays.length → (∃ a ∈ arrays, a.len ≠ commonLen arrays) →
      (build_struct_fields fields arrays).isOk = false)
    ∧ (fields.length = arrays.length → (∀ a ∈ arrays, a.len = commonLen arrays) →
      (∀ p ∈ fields.zip arrays, (build_array_deserializer p.1 p.2).isOk = true) →
      ∃ ds, build_struct_fields fields arrays = .ok (ds, commonLen arrays)
        ∧ ds.map Prod.fst = fields.map GenericField.name) := by
  refine ⟨fun hne => ?_, fun hlen hex => ?_, fun hlen hall hbuild => ?_⟩
  · unfold build_struct_fields
    rw [if_pos hne]
    rfl
  · unfold build_struct_fields
    rw [if_neg (by simp [hlen])]
    have herr := buildStructFieldsGo_err (commonLen arrays) fields arrays hlen hex
    cases hgo : buildStructFieldsGo (commonLen arrays) fields arrays with
    | error e => rfl
    | ok ds => rw [hgo] at herr; exact absurd herr (by simp [except_isOk_ok])
  · obtain ⟨ds, hds, hnames⟩ :=
      buildStructFieldsGo_ok (commonLen arrays) fields arrays hlen hall hbuild
    refine ⟨ds, ?_, hnames⟩
    unfold build_struct_fields
    rw [if_neg (by simp [hlen]), hds]

/-- Witness for claim C8 amended: one int32 field with one array of length
two builds successfully with the common length two. -/
theorem claim_C8_amended_struct_construction_witness :
    ∃ ds, build_struct_fields [⟨"a", .i32, false, []⟩] [.primitive .i32 2]
        = .ok (ds, commonLen [.primitive .i32 2])
      ∧ ds.map Prod.fst
        = ([⟨"a", .i32, false, []⟩] : List GenericField).map GenericField.name :=
  (claim_C8_amended_struct_construction [⟨"a", .i32, false, []⟩]
    [.primitive .i32 2]).2.2 rfl
    (by intro a ha; simp only [List.mem_singleton] at ha; rw [ha]; rfl)
    (by intro p hp; simp only [List.zip_cons_cons, List.zip_nil_right,
          List.mem_singleton] at hp; rw [hp]; rfl)

/-- The builder-state invariant of spec section 3 for an Utf8Builder after n
rows: n + 1 offsets starting at zero, monotone, the running total equal to
the last offset, and (when nullable) one validity entry per row. -/
def utf8Inv (nullable : Bool) (n : Nat) (b : Utf8Builder) : Prop :=
  b.offsets.offsets.length = n + 1
  ∧ b.offsets.offsets.head? = .some 0
  ∧ List.Chain' (· ≤ ·) b.offsets.offsets
  ∧ b.offsets.offsets.getLast? = .some b.offsets.current
  ∧ (match b.validity with
     | .some bits => nullable = true ∧ bits.length = n
     | .none => nullable = false)

/-- A fresh builder satisfies the invariant with zero rows. -/
lemma utf8Inv_new (nullable : Bool) : utf8Inv nullable 0 (Utf8Builder.new nullable) := by
  cases nullable <;>
    simp [utf8Inv, Utf8Builder.new, MutableOffsetBuffer.default]

/-- Appending an entry at least as large as the running total preserves the
offset-buffer part of the invariant. -/
lemma offsets_append_inv (l : List Int) (cur x : Int) (n : Nat)
    (hlen : l.length = n + 1) (hhead : l.head? = .some 0)
    (hchain : List.Chain' (· ≤ ·) l) (hlast : l.getLast? = .some cur)
    (hle : cur ≤ x) :
    (l ++ [x]).length = (n + 1) + 1
    ∧ (l ++ [x]).head? = .some 0
    ∧ List.Chain' (· ≤ ·) (l ++ [x])
    ∧ (l ++ [x]).getLast? = .some x := by
  have hne : l ≠ [] := by
    intro hnil
    rw [hnil] at hlen
    simp at hlen
  refine ⟨by simp [hlen], ?_, ?_, ?_⟩
  · rw [List.head?_append, hhead]
    rfl
  · rw [List.chain'_append]
    refine ⟨hchain, List.chain'_singleton x, ?_⟩
    intro a ha y hy
    rw [hlast] at ha
    cases ha
    cases hy
    exact hle
  · rw [List.getLast?_concat]

/-- One successful row-write preserves the invariant, advancing the row
count by one. -/
lemma utf8Inv_step (w : OffsetWidth) (nullable : Bool) (n : Nat)
    (b b1 : Utf8Builder) (op : Utf8Op) (hInv : utf8Inv nullable n b)
    (h : b.applyOp w op = .ok b1) : utf8Inv nullable (n + 1) b1 := by
  obtain ⟨hlen, hhead, hchain, hlast, hval⟩ := hInv
  have hoffs :=
    offsets_append_inv b.offsets.offsets b.offsets.current b.offsets.current n
      hlen hhead hchain hlast le_rfl
  cases op with
  | noneOp =>
    cases hv : b.validity with
    | none =>
      simp [Utf8Builder.applyOp, Utf8Builder.serializeNone, pushValidity, hv] at h
    | some bits =>
      simp only [Utf8Builder.applyOp, Utf8Builder.serializeNone, pushValidity, hv,
        MutableOffsetBuffer.pushCurrentItems] at h
      cases h
      rw [hv] at hval
      exact ⟨hoffs.1, hoffs.2.1, hoffs.2.2.1, hoffs.2.2.2, hval.1, by simp [hval.2]⟩
  | defaultOp =>
    cases hv : b.validity with
    | none =>
      simp only [Utf8Builder.applyOp, Utf8Builder.serializeDefault, pushValidityDefault,
        hv, MutableOffsetBuffer.pushCurrentItems] at h
      cases h
      rw [hv] at hval
      exact ⟨hoffs.1, hoffs.2.1, hoffs.2.2.1, hoffs.2.2.2, hval⟩
    | some bits =>
      simp only [Utf8Builder.applyOp, Utf8Builder.serializeDefault, pushValidityDefault,
        hv, MutableOffsetBuffer.pushCurrentItems] at h
      cases h
      rw [hv] at hval
      exact ⟨hoffs.1, hoffs.2.1, hoffs.2.2.1, hoffs.2.2.2, hval.1, by simp [hval.2]⟩
  | str s =>
    have hle : b.offsets.current ≤ b.offsets.current + (s.length : Int) := by
      have hnn : (0 : Int) ≤ (s.length : Int) := Int.ofNat_nonneg _
      omega
    have hoffs2 :=
      offsets_append_inv b.offsets.offsets b.offsets.current
        (b.offsets.current + (s.length : Int)) n hlen hhead hchain hlast hle
    cases hv : b.validity with
    | none =>
      simp only [Utf8Builder.applyOp, Utf8Builder.serializeStr, pushValidity, hv,
        MutableOffsetBuffer.push] at h
      by_cases hfit : b.offsets.current + (s.length : Int) ≤ w.maxOffset
      · rw [if_pos hfit] at h
        cases h
        rw [hv] at hval
        exact ⟨hoffs2.1, hoffs2.2.1, hoffs2.2.2.1, hoffs2.2.2.2, hval⟩
      · rw [if_neg hfit] at h
        exact Except.noConfusion h
    | some bits =>
      simp only [Utf8Builder.applyOp, Utf8Builder.serializeStr, pushValidity, hv,
        MutableOffsetBuffer.push] at h
      by_cases hfit : b.offsets.current + (s.length : Int) ≤ w.maxOffset
      · rw [if_pos hfit] at h
        cases h
        rw [hv] at hval
        exact ⟨hoffs2.1, hoffs2.2.1, hoffs2.2.2.1, hoffs2.2.2.2, hval.1, by simp [hval.2]⟩
      · rw [if_neg hfit] at h
        exact Except.noConfusion h

/-- Running a list of row-writes from an invariant state lands in an
invariant state with the row count advanced by the list length. -/
lemma utf8Inv_run (w : OffsetWidth) (nullable : Bool) :
    ∀ (ops : List Utf8Op) (b : Utf8Builder) (n : Nat) (b1 : Utf8Builder),
      utf8Inv nullable n b → b.runOps w ops = .ok b1 →
      utf8Inv nullable (n + ops.length) b1 := by
  intro ops
  induction ops with
  | nil =>
    intro b n b1 hInv h
    unfold Utf8Builder.runOps at h
    cases h
    simpa using hInv
  | cons op rest ih =>
    intro b n b1 hInv h
    unfold Utf8Builder.runOps at h
    cases happ : b.applyOp w op with
    | error e => rw [happ] at h; cases h
    | ok b2 =>
      rw [happ] at h
      have hInv2 := utf8Inv_step w nullable n b b2 op hInv happ
      have := ih b2 (n + 1) b1 hInv2 h
      have harith : (n + 1) + rest.length = n + (op :: rest).length := by
        simp
        omega
      rw [harith] at this
      exact this

/--
Claim C6: after any successful sequence of N row-writes (serialize_str,
serialize_none, serialize_default, in any order) on a fresh Utf8Builder of
either offset width, the offsets buffer holds N + 1 entries, starts at
zero, is monotone non-decreasing, and — when the field is nullable — the
validity bitmap holds exactly N entries.
-/
theorem claim_C6_utf8_builder_invariants (w : OffsetWidth) (nullable : Bool)
    (ops : List Utf8Op) (b : Utf8Builder)
    (h : (Utf8Builder.new nullable).runOps w ops = .ok b) :
    b.offsets.offsets.length = ops.length + 1
    ∧ b.offsets.offsets.head? = .some 0
    ∧ List.Chain' (· ≤ ·) b.offsets.offsets
    ∧ (nullable = true → ∃ bits, b.validity = .some bits ∧ bits.length = ops.length) := by
  have hrun := utf8Inv_run w nullable ops (Utf8Builder.new nullable) 0 b
    (utf8Inv_new nullable) h
  rw [Nat.zero_add] at hrun
  obtain ⟨h1, h2, h3, _, hval⟩ := hrun
  refine ⟨h1, h2, h3, fun hn => ?_⟩
  cases hv : b.validity with
  | some bits =>
    rw [hv] at hval
    exact ⟨bits, rfl, hval.2⟩
  | none =>
    rw [hv] at hval
    rw [hval] at hn
    cases hn

/-- The concrete builder state reached by the witness run of claim C6. -/
def utf8WitnessBuilder : Utf8Builder :=
  ⟨.some [true, false, false], ⟨[0, 2, 2, 2], 2⟩, [97, 98]⟩

/-- The witness row-writes of claim C6: a string row, a null row and a
default row. -/
def utf8WitnessOps : List Utf8Op := [.str [97, 98], .noneOp, .defaultOp]

/-- Witness for claim C6: three row-writes on a fresh nullable builder with
32-bit offsets. -/
theorem claim_C6_utf8_builder_invariants_witness :
    utf8WitnessBuilder.offsets.offsets.length = utf8WitnessOps.length + 1
    ∧ utf8WitnessBuilder.offsets.offsets.head? = .some 0
    ∧ List.Chain' (· ≤ ·) utf8WitnessBuilder.offsets.offsets
    ∧ (true = true → ∃ bits, utf8WitnessBuilder.validity = .some bits
        ∧ bits.length = utf8WitnessOps.length) :=
  claim_C6_utf8_builder_invariants .o32 true utf8WitnessOps utf8WitnessBuilder rfl

/-- The length of an appended string is the sum of the lengths. -/
lemma string_append_length (s t : String) : (s ++ t).length = s.length + t.length := by
  rcases s with ⟨l⟩
  rcases t with ⟨m⟩
  show (l ++ m).length = l.length + m.length
  exact List.length_append l m

/-- A number below the k-th power of ten has at most k digits. -/
lemma natDigitsAux_length_le :
    ∀ (fuel n k : Nat), n < 10 ^ k → (natDigitsAux fuel n).length ≤ k := by
  intro fuel
  induction fuel with
  | zero =>
    intro n k _
    simp [natDigitsAux]
  | succ fuel ih =>
    intro n k h
    unfold natDigitsAux
    by_cases hn : n = 0
    · simp [hn]
    · rw [if_neg hn]
      cases k with
      | zero =>
        simp at h
        omega
      | succ k =>
        simp only [List.length_cons]
        have hdiv : n / 10 < 10 ^ k := by
          rw [Nat.div_lt_iff_lt_mul (by norm_num)]
          calc n < 10 ^ (k + 1) := h
            _ = 10 ^ k * 10 := by ring
        have := ih (n / 10) k hdiv
        omega

/-- The decimal rendering of a number below the k-th power of ten has at
most k characters (k positive for the zero case). -/
lemma decimalDigits_length_le (n k : Nat) (hk : 1 ≤ k) (h : n < 10 ^ k) :
    (decimalDigits n).length ≤ k := by
  unfold decimalDigits
  by_cases hn : n = 0
  · rw [if_pos hn]
    exact hk
  · rw [if_neg hn]
    have hmk : (String.mk ((natDecimalDigitsList n).reverse.map
        (fun d => Char.ofNat (48 + d)))).length = (natDecimalDigitsList n).length := by
      show ((natDecimalDigitsList n).reverse.map (fun d => Char.ofNat (48 + d))).length
          = (natDecimalDigitsList n).length
      rw [List.length_map, List.length_reverse]
    rw [hmk]
    exact natDigitsAux_length_le n n k h

/-- Zero-padding a string no longer than the width yields exactly the
width. -/
lemma zeroPad_length_of_le (w : Nat) (s : String) (h : s.length ≤ w) :
    (zeroPad w s).length = w := by
  unfold zeroPad
  rw [string_append_length]
  have hmk : (String.mk (List.replicate (w - s.length) '0')).length = w - s.length := by
    show (List.replicate (w - s.length) '0').length = w - s.length
    exact List.length_replicate _ _
  rw [hmk]
  omega

/--
Claim C3: whenever a Date32 value renders to a string and its calendar year
is negative, the rendered string is the explicit negative format — a minus
sign, the year magnitude zero-padded to width six (and, within the calendar
library's representable years, exactly six characters long), then the padded
month and day — while a non-negative year takes the default rendering.
-/
theorem claim_C3_negative_year_rendering (ts : Int) (s : String)
    (h : date32StringRepr ts = .some s) :
    (yearOfDays ts < 0 →
      s = negativeYearDisplay (yearOfDays ts)
            (civilFromDays ts).2.1 (civilFromDays ts).2.2
      ∧ (zeroPad 6 (decimalDigits (-(yearOfDays ts)).toNat)).length = 6)
    ∧ (0 ≤ yearOfDays ts →
      s = defaultDateDisplay (yearOfDays ts)
            (civilFromDays ts).2.1 (civilFromDays ts).2.2) := by
  unfold date32StringRepr at h
  by_cases hrange : yearOfDays ts < chronoMinYear ∨ chronoMaxYear < yearOfDays ts
  · rw [if_pos hrange] at h
    exact Option.noConfusion h
  · rw [if_neg hrange] at h
    push_neg at hrange
    constructor
    · intro hy
      rw [if_pos hy] at h
      refine ⟨(Option.some.inj h).symm, ?_⟩
      have hyge : chronoMinYear ≤ yearOfDays ts := hrange.1
      have hmag : (-(yearOfDays ts)).toNat < 10 ^ 6 := by
        have h1 : -(yearOfDays ts) ≤ 262144 := by
          unfold chronoMinYear at hyge
          omega
        have h2 : (-(yearOfDays ts)).toNat ≤ 262144 := Int.toNat_le.mpr h1
        calc (-(yearOfDays ts)).toNat ≤ 262144 := h2
          _ < 10 ^ 6 := by norm_num
      exact zeroPad_length_of_le 6 _ (decimalDigits_length_le _ 6 (by norm_num) hmag)
    · intro hy
      rw [if_neg (by omega)] at h
      exact (Option.some.inj h).symm

/-- Witness for claim C3: the Date32 day count of January first of year
minus one renders as the six-digit padded string, not as a short form. -/
theorem claim_C3_negative_year_rendering_witness :
    date32StringRepr (-719893) = .some "-000001-01-01"
    ∧ ("-000001-01-01" : String)
        = negativeYearDisplay (yearOfDays (-719893))
            (civilFromDays (-719893)).2.1 (civilFromDays (-719893)).2.2
    ∧ (zeroPad 6 (decimalDigits (-(yearOfDays (-719893))).toNat)).length = 6 := by
  have h : date32StringRepr (-719893) = .some "-000001-01-01" := by decide
  have h2 := (claim_C3_negative_year_rendering (-719893) "-000001-01-01" h).1 (by decide)
  exact ⟨h, h2.1, h2.2⟩

end SerdeArrow
